import Mathlib

/-!
Verification of the Skills-MCP lead-generation pipeline specification.

The repository ships the pipeline's documentation (`skills/apollo-clay-leads/SKILL.md`)
and two Next.js route handlers that invoke the pipeline scripts.  The handlers are
embedded directly from their TypeScript sources; the pipeline core (query parser,
lead sources, enricher, scorer, orchestrator) is not present in the repository, so
it is modelled from the specification text, as marked on each definition.
-/

/-- The seven recognized scoring criteria, in declaration order. -/
inductive Criterion
  | title_match
  | seniority_match
  | industry_match
  | company_size_match
  | location_match
  | verified_email
  | has_linkedin
deriving DecidableEq, Repr

/-- The fixed declaration order of the seven criteria. -/
def Criterion.all : List Criterion :=
  [.title_match, .seniority_match, .industry_match, .company_size_match,
   .location_match, .verified_email, .has_linkedin]

/-- Seniority levels recognized by the parser and scorer. -/
inductive Seniority
  | c_suite
  | vp
  | director
  | manager
  | individual_contributor
deriving DecidableEq, Repr

/-- A half-open employee-count range `[lo, hi)`; `hi = none` means unbounded. -/
structure SizeRange where
  lo : Nat
  hi : Option Nat
deriving DecidableEq, Repr

/-- A range is well formed when a finite upper bound lies strictly above the lower one. -/
def SizeRange.validB (r : SizeRange) : Bool :=
  match r.hi with
  | none => true
  | some h => decide (r.lo < h)

/-- Whether an employee count falls inside the half-open range. -/
def SizeRange.holdsCount (r : SizeRange) (n : Nat) : Bool :=
  decide (r.lo ≤ n) && (match r.hi with | none => true | some h => decide (n < h))

/-- Structured targeting criteria produced by the parser. -/
structure FilterSpec where
  titles : List String
  seniorities : List Seniority
  industries : List String
  company_size_ranges : List SizeRange
  locations : List String
deriving DecidableEq, Repr

/-- The empty FilterSpec, valid and matching everything with zero bonus. -/
def FilterSpec.empty : FilterSpec := ⟨[], [], [], [], []⟩

/-- A FilterSpec is valid when every size range it carries is well formed. -/
def FilterSpec.valid (f : FilterSpec) : Prop :=
  ∀ r ∈ f.company_size_ranges, r.validB = true

/- ## Tokenizer (modelled from the spec: §4.1 "tokenize on whitespace/punctuation",
   lowercasing before table lookup; hyphens are kept inside tokens so numeric
   ranges such as "50-200" survive tokenization). -/

/-- Characters that are part of a token: alphanumerics and the hyphen. -/
def tokenChar (c : Char) : Bool := c.isAlphanum || c = '-'

/-- Split a character stream into maximal runs of token characters. -/
def splitTokens : List Char → List Char → List String
  | [], acc => if acc.isEmpty then [] else [String.mk acc.reverse]
  | c :: cs, acc =>
    if tokenChar c then splitTokens cs (c :: acc)
    else (if acc.isEmpty then [] else [String.mk acc.reverse]) ++ splitTokens cs []

/-- Modelled from the spec: the parser's tokenizer (lowercase, split on
whitespace/punctuation, hyphens kept). -/
def tokenize (s : String) : List String :=
  splitTokens (s.data.map Char.toLower) []

/- ## Cue tables (modelled from the spec §4.1 and the SKILL.md examples). -/

/-- Modelled from the spec: curated role nouns mapped to canonical title patterns. -/
def titleCues : List (String × String) :=
  [("cto", "CTO*"), ("ctos", "CTO*"), ("ceo", "CEO*"), ("ceos", "CEO*"),
   ("administrator", "Administrator*"), ("administrators", "Administrator*"),
   ("vp", "VP*"), ("vps", "VP*"),
   ("director", "Director*"), ("directors", "Director*"),
   ("manager", "Manager*"), ("managers", "Manager*")]

/-- Modelled from the spec: seniority keyword cues. -/
def seniorityCues : List (String × Seniority) :=
  [("cto", .c_suite), ("ctos", .c_suite), ("ceo", .c_suite), ("ceos", .c_suite),
   ("chief", .c_suite),
   ("vp", .vp), ("vps", .vp), ("vice", .vp),
   ("director", .director), ("directors", .director),
   ("manager", .manager), ("managers", .manager)]

/-- Modelled from the spec: industry keyword cues. -/
def industryCues : List (String × String) :=
  [("saas", "SaaS"), ("marketing", "Marketing"), ("software", "Software"),
   ("fintech", "FinTech"), ("healthcare", "Healthcare")]

/-- Modelled from the spec: qualitative size adjectives mapped to canonical ranges
(startup/small → `[1,50)`, large/enterprise → `[500,∞)`). -/
def sizeCues : List (String × SizeRange) :=
  [("startup", ⟨1, some 50⟩), ("startups", ⟨1, some 50⟩), ("small", ⟨1, some 50⟩),
   ("large", ⟨500, none⟩), ("enterprise", ⟨500, none⟩)]

/-- Modelled from the spec: recognized location names and abbreviations. -/
def locationCues : List (String × String) :=
  [("us", "US"), ("usa", "US"), ("america", "US"), ("uk", "UK"), ("europe", "Europe")]

/-- First-match lookup in a cue table. -/
def lookupCue {α : Type} (table : List (String × α)) (tok : String) : Option α :=
  (table.find? (fun p => p.1 == tok)).map Prod.snd

/-- Append an element only if it is not already present (union accumulation). -/
def insertUniq {α : Type} [DecidableEq α] (xs : List α) (x : α) : List α :=
  if x ∈ xs then xs else xs ++ [x]

/-- Deduplicate while keeping first-occurrence order. -/
def dedup {α : Type} [DecidableEq α] (l : List α) : List α :=
  l.foldl insertUniq []

/-- Digits-only string segment to a number. -/
def digitsToNat (cs : List Char) : Option Nat :=
  if cs.isEmpty then none
  else if cs.all Char.isDigit then
    some (cs.foldl (fun n c => n * 10 + (c.toNat - 48)) 0)
  else none

/-- Modelled from the spec: a numeric mention "A-B" parsed directly to `[A,B)`,
kept only when it denotes a nonempty range. -/
def parseNumericRange (tok : String) : Option SizeRange :=
  match tok.data.dropWhile (fun c => c ≠ '-') with
  | '-' :: after =>
    if after.contains '-' then none
    else
      match digitsToNat (tok.data.takeWhile (fun c => c ≠ '-')), digitsToNat after with
      | some lo, some hi => if lo < hi then some ⟨lo, some hi⟩ else none
      | _, _ => none
  | _ => none

/-- All numeric size ranges mentioned in the token stream. -/
def numericRanges (toks : List String) : List SizeRange :=
  toks.filterMap parseNumericRange

/-- All qualitative size cues in the token stream, deduplicated. -/
def qualRanges (toks : List String) : List SizeRange :=
  dedup (toks.filterMap (lookupCue sizeCues))

/-- Modelled from the spec: titles are first-match-wins per field. -/
def parseTitles (toks : List String) : List String :=
  match toks.findSome? (lookupCue titleCues) with
  | some p => [p]
  | none => []

/-- Modelled from the spec: seniority cues accumulate as a union. -/
def parseSeniorities (toks : List String) : List Seniority :=
  dedup (toks.filterMap (lookupCue seniorityCues))

/-- Modelled from the spec: industry cues accumulate (OR semantics). -/
def parseIndustries (toks : List String) : List String :=
  dedup (toks.filterMap (lookupCue industryCues))

/-- Modelled from the spec: numeric mentions take precedence over qualitative cues. -/
def parseSizes (toks : List String) : List SizeRange :=
  if numericRanges toks = [] then qualRanges toks else numericRanges toks

/-- Modelled from the spec: recognized location names normalized to canonical tokens. -/
def parseLocations (toks : List String) : List String :=
  dedup (toks.filterMap (lookupCue locationCues))

/-- Modelled from the spec: `parse(text) -> FilterSpec`, a total function assembling
the five fields from the cue tables over the token stream. -/
def QueryParser.parse (s : String) : FilterSpec :=
  { titles := parseTitles (tokenize s)
    seniorities := parseSeniorities (tokenize s)
    industries := parseIndustries (tokenize s)
    company_size_ranges := parseSizes (tokenize s)
    locations := parseLocations (tokenize s) }

/- ## Lead data model (modelled from the spec §3). -/

/-- One entry of a score breakdown: criterion, awarded points, match flag, reason. -/
structure BreakdownEntry where
  criterion : Criterion
  points : Nat
  matched : Bool
  detail : String
deriving DecidableEq, Repr

/-- Modelled from the spec: one candidate record moving through the pipeline. -/
structure Lead where
  full_name : String
  title : String
  company_name : String
  industry : String
  employee_count : Option Nat
  location : String
  linkedin_url : Option String
  email : Option String
  email_verified : Bool
  enrichment : List (String × List (String × String)) := []
  defects : List String := []
  fit_score : Nat := 0
  score_breakdown : List BreakdownEntry := []
deriving DecidableEq, Repr

/-- The identity/contact fields of a lead, used to state that a stage leaves them intact. -/
def Lead.core (l : Lead) :
    String × String × String × String × Option Nat × String ×
      Option String × Option String × Bool :=
  (l.full_name, l.title, l.company_name, l.industry, l.employee_count,
   l.location, l.linkedin_url, l.email, l.email_verified)

/-- Modelled from the spec: a named bundle of filters plus scoring weights
(criteria not configured are worth 0, here a total function). -/
structure ICPConfig where
  name : String
  description : String
  filters : FilterSpec
  scoring_weights : Criterion → Nat

/-- The default weight table from SKILL.md (25/20/20/15/10/5/5). -/
def defaultWeights : Criterion → Nat
  | .title_match => 25
  | .seniority_match => 20
  | .industry_match => 20
  | .company_size_match => 15
  | .location_match => 10
  | .verified_email => 5
  | .has_linkedin => 5

/-- Modelled from the spec §4.2: a parsed FilterSpec wrapped with the built-in
default weight table. -/
def resolveDefault (f : FilterSpec) : ICPConfig :=
  { name := "default", description := "", filters := f, scoring_weights := defaultWeights }

/- ## Scorer (modelled from the spec §4.5 and the SKILL.md scoring table). -/

/-- Boolean list-prefix test on character lists. -/
def isPrefList : List Char → List Char → Bool
  | [], _ => true
  | _ :: _, [] => false
  | a :: as, b :: bs => a == b && isPrefList as bs

/-- Case-insensitive exact or trailing-wildcard title pattern match. -/
def matchesPattern (pattern title : String) : Bool :=
  if pattern.data.getLast? = some '*' then
    isPrefList (pattern.data.dropLast.map Char.toLower) (title.data.map Char.toLower)
  else
    pattern.data.map Char.toLower == title.data.map Char.toLower

/-- Seniority inferred from a title via the parser's own cue table. -/
def seniorityOfTitle (title : String) : Option Seniority :=
  (tokenize title).findSome? (lookupCue seniorityCues)

/-- Case-insensitive token-level location match. -/
def locationMatches (cue loc : String) : Bool :=
  (tokenize loc).any (fun t => t == String.mk (cue.data.map Char.toLower))

/-- Modelled from the spec: whether a lead satisfies one criterion of a FilterSpec. -/
def criterionMatches (lead : Lead) (f : FilterSpec) : Criterion → Bool
  | .title_match => f.titles.any (fun p => matchesPattern p lead.title)
  | .seniority_match =>
    match seniorityOfTitle lead.title with
    | some s => f.seniorities.contains s
    | none => false
  | .industry_match =>
    f.industries.any (fun i => i.data.map Char.toLower == lead.industry.data.map Char.toLower)
  | .company_size_match =>
    match lead.employee_count with
    | some n => f.company_size_ranges.any (fun r => r.holdsCount n)
    | none => false
  | .location_match => f.locations.any (fun cue => locationMatches cue lead.location)
  | .verified_email => lead.email_verified
  | .has_linkedin =>
    match lead.linkedin_url with
    | some u => u != ""
    | none => false

/-- One breakdown entry: full configured weight on a binary match, else zero. -/
def scoreEntry (lead : Lead) (cfg : ICPConfig) (c : Criterion) : BreakdownEntry :=
  { criterion := c
    points := if criterionMatches lead cfg.filters c then cfg.scoring_weights c else 0
    matched := criterionMatches lead cfg.filters c
    detail := if criterionMatches lead cfg.filters c then "matched" else "not matched" }

/-- Modelled from the spec: deterministic scoring; the sum of awarded weights is
clamped to `[0,100]` and every criterion is recorded in declaration order. -/
def Scorer.score (lead : Lead) (cfg : ICPConfig) : Lead :=
  { lead with
    fit_score := min ((Criterion.all.map (fun c => (scoreEntry lead cfg c).points)).sum) 100
    score_breakdown := Criterion.all.map (scoreEntry lead cfg) }

/- ## Synthetic-mock lead source (modelled from the spec §4.3: deterministically
generates `limit` plausible leads, fields cycling through the FilterSpec). -/

/-- Cyclic indexing with a default for the empty list. -/
def cycleGet {α : Type} (xs : List α) (dflt : α) (i : Nat) : α :=
  match xs with
  | [] => dflt
  | _ => xs.getD (i % xs.length) dflt

/-- Drop a trailing wildcard from a title pattern to obtain a concrete title. -/
def stripStar (p : String) : String :=
  if p.data.getLast? = some '*' then String.mk p.data.dropLast else p

/-- Modelled from the spec: the i-th synthetic lead for a FilterSpec. -/
def mockLead (f : FilterSpec) (i : Nat) : Lead :=
  { full_name := "Mock Lead " ++ toString (i + 1)
    title := stripStar (cycleGet f.titles "Employee" i)
    company_name := "MockCo " ++ toString (i + 1)
    industry := cycleGet f.industries "General" i
    employee_count := some (match f.company_size_ranges with | [] => 10 | r :: _ => r.lo)
    location := cycleGet f.locations "Unknown" i
    linkedin_url := some ("https://linkedin.com/in/mock" ++ toString (i + 1))
    email := some ("mock" ++ toString (i + 1) ++ "@example.com")
    email_verified := false }

/-- Modelled from the spec: the synthetic-mock source returns exactly `limit` leads. -/
def mockFetch (f : FilterSpec) (limit : Nat) : List Lead :=
  (List.range limit).map (mockLead f)

/- ## Parser lemmas. -/

/-- An element of a `foldl insertUniq` accumulation came from the seed or the list. -/
lemma mem_foldl_insertUniq {α : Type} [DecidableEq α] (l : List α) :
    ∀ (init : List α) (x : α), x ∈ l.foldl insertUniq init → x ∈ init ∨ x ∈ l := by
  induction l with
  | nil => intro init x h; exact Or.inl h
  | cons a t ih =>
    intro init x h
    rcases ih (insertUniq init a) x h with h' | h'
    · unfold insertUniq at h'
      by_cases ha : a ∈ init
      · rw [if_pos ha] at h'; exact Or.inl h'
      · rw [if_neg ha] at h'
        rcases List.mem_append.1 h' with h'' | h''
        · exact Or.inl h''
        · simp only [List.mem_singleton] at h''
          subst h''
          exact Or.inr (List.mem_cons_self _ _)
    · exact Or.inr (List.mem_cons_of_mem _ h')

/-- Deduplication only drops elements, it never invents one. -/
lemma mem_dedup {α : Type} [DecidableEq α] {l : List α} {x : α} (h : x ∈ dedup l) : x ∈ l := by
  rcases mem_foldl_insertUniq l [] x h with h' | h'
  · cases h'
  · exact h'

/-- Every range produced from a numeric mention is well formed. -/
lemma parseNumericRange_valid {t : String} {r : SizeRange}
    (h : parseNumericRange t = some r) : r.validB = true := by
  unfold parseNumericRange at h
  split at h
  · split at h
    · cases h
    · split at h
      · split at h
        · injection h with h'
          subst h'
          simp only [SizeRange.validB]
          simp_all
        · cases h
      · cases h
  · cases h

/-- Every range in the qualitative cue table is well formed. -/
lemma lookupCue_sizeCues_valid {t : String} {r : SizeRange}
    (h : lookupCue sizeCues t = some r) : r.validB = true := by
  unfold lookupCue at h
  cases hf : sizeCues.find? (fun p => p.1 == t) with
  | none => rw [hf] at h; cases h
  | some p =>
    rw [hf] at h
    injection h with h'
    have hm := List.mem_of_find?_eq_some hf
    have hall : ∀ q ∈ sizeCues, SizeRange.validB q.2 = true := by decide
    subst h'
    exact hall p hm

/-- Every size range the parser emits is well formed. -/
lemma parseSizes_valid (toks : List String) :
    ∀ r ∈ parseSizes toks, r.validB = true := by
  intro r hr
  unfold parseSizes at hr
  split at hr
  · unfold qualRanges at hr
    have h2 := mem_dedup hr
    rcases List.mem_filterMap.1 h2 with ⟨t, _, ht⟩
    exact lookupCue_sizeCues_valid ht
  · unfold numericRanges at hr
    rcases List.mem_filterMap.1 hr with ⟨t, _, ht⟩
    exact parseNumericRange_valid ht

/- ## Claim theorems: parser and scorer. -/

/-- C1: for every lead and every ICPConfig, the `fit_score` produced by
`Scorer.score` lies between 0 and 100 inclusive — the sum of awarded criterion
weights is clamped regardless of how large the configured weights are. -/
theorem C1_fit_score_in_range (lead : Lead) (cfg : ICPConfig) :
    0 ≤ (Scorer.score lead cfg).fit_score ∧ (Scorer.score lead cfg).fit_score ≤ 100 :=
  ⟨Nat.zero_le _, Nat.min_le_right _ _⟩

/-- C2: the dry-run scenario — for the query "CTOs at SaaS startups" the parser
yields titles `["CTO*"]`, industries `["SaaS"]`, company sizes `[[1,50)]`; the
synthetic-mock source returns exactly 10 leads, each with title "CTO" and
industry "SaaS", and every lead scores at least 60 points under the default
weight table. -/
theorem C2_ctos_saas_scenario :
    (QueryParser.parse "CTOs at SaaS startups").titles = ["CTO*"] ∧
    (QueryParser.parse "CTOs at SaaS startups").industries = ["SaaS"] ∧
    (QueryParser.parse "CTOs at SaaS startups").company_size_ranges = [⟨1, some 50⟩] ∧
    (mockFetch (QueryParser.parse "CTOs at SaaS startups") 10).length = 10 ∧
    ((mockFetch (QueryParser.parse "CTOs at SaaS startups") 10).all (fun l =>
      l.title == "CTO" && l.industry == "SaaS" &&
        decide (60 ≤ (Scorer.score l
          (resolveDefault (QueryParser.parse "CTOs at SaaS startups"))).fit_score))) = true := by
  refine ⟨by decide, by decide, by decide, by decide, by decide⟩

/-- C3: `QueryParser.parse` is a total function — it is defined for every input
string, always returns a well-formed FilterSpec, and on an input with no
recognized token (such as the empty string) it degrades to the empty FilterSpec. -/
theorem C3_parse_total_valid :
    (∀ s, (QueryParser.parse s).valid) ∧ QueryParser.parse "" = FilterSpec.empty := by
  constructor
  · intro s r hr
    exact parseSizes_valid (tokenize s) r hr
  · rfl

/-- C6: whenever the input text carries at least one explicit numeric employee
range, the parsed FilterSpec's size ranges are exactly the numeric mentions, and
any qualitative cue's canonical range that is not itself among the numeric
mentions is absent — numeric mentions take precedence over qualitative cues. -/
theorem C6_numeric_beats_qualitative (s : String)
    (h : numericRanges (tokenize s) ≠ []) :
    (QueryParser.parse s).company_size_ranges = numericRanges (tokenize s) ∧
    ∀ q ∈ qualRanges (tokenize s), q ∉ numericRanges (tokenize s) →
      q ∉ (QueryParser.parse s).company_size_ranges := by
  have he : (QueryParser.parse s).company_size_ranges = numericRanges (tokenize s) := by
    show parseSizes (tokenize s) = _
    unfold parseSizes
    rw [if_neg h]
  exact ⟨he, fun q _ hq => by rw [he]; exact hq⟩

/-- C6 witness: "large companies with 50-200 employees" parses to exactly the
numeric range `[50,200)`; the qualitative range `[500,∞)` for "large" is absent. -/
theorem C6_numeric_beats_qualitative_witness :
    (QueryParser.parse "large companies with 50-200 employees").company_size_ranges =
      [⟨50, some 200⟩] ∧
    (⟨500, none⟩ : SizeRange) ∉
      (QueryParser.parse "large companies with 50-200 employees").company_size_ranges := by
  constructor
  · have h1 := (C6_numeric_beats_qualitative "large companies with 50-200 employees"
      (by decide)).1
    rw [h1]
    decide
  · exact (C6_numeric_beats_qualitative "large companies with 50-200 employees"
      (by decide)).2 ⟨500, none⟩ (by decide) (by decide)

/-- C7: for every lead and config, the score breakdown enumerates exactly the
seven recognized criteria in their fixed declaration order, with an entry for
each criterion regardless of match outcome. -/
theorem C7_breakdown_complete (lead : Lead) (cfg : ICPConfig) :
    (Scorer.score lead cfg).score_breakdown.map (fun e => e.criterion) =
      [Criterion.title_match, .seniority_match, .industry_match, .company_size_match,
       .location_match, .verified_email, .has_linkedin] := rfl

/- ## Pipeline run (modelled from the spec §3 PipelineRun and §4.7 orchestrator). -/

/-- Modelled from the spec: the per-run counters. -/
structure RunStats where
  fetched : Nat := 0
  enriched : Nat := 0
  enrichment_failed : Nat := 0
  scored : Nat := 0
  exported : Nat := 0
deriving DecidableEq, Repr

/-- Modelled from the spec: the unit of execution with its stats and lead sequence. -/
structure PipelineRun where
  run_id : String
  stats : RunStats
  leads : List Lead
deriving Repr

/-- The post-scoring order: descending `fit_score`, ties broken by the original
fetch position (the `Nat` component). -/
def rankRel (a b : Nat × Lead) : Prop :=
  b.2.fit_score < a.2.fit_score ∨ (a.2.fit_score = b.2.fit_score ∧ a.1 ≤ b.1)

instance : DecidableRel rankRel := fun a b =>
  decidable_of_iff
    (b.2.fit_score < a.2.fit_score ∨ (a.2.fit_score = b.2.fit_score ∧ a.1 ≤ b.1)) Iff.rfl

instance : IsTotal (Nat × Lead) rankRel := ⟨fun a b => by unfold rankRel; omega⟩

instance : IsTrans (Nat × Lead) rankRel := ⟨fun a b c hab hbc => by
  unfold rankRel at hab hbc ⊢; omega⟩

/-- Stable sort of scored leads: tag with fetch position, sort by `rankRel`. -/
def sortScored (ls : List Lead) : List (Nat × Lead) :=
  List.insertionSort rankRel ls.enum

/-- Modelled from the spec: the scoring/ordering tail of a successful pipeline run —
every fetched lead is scored exactly once, the result is ordered by descending
fit score with fetch order breaking ties, and `stats.scored` counts the scored leads. -/
def runPipeline (fetched : List Lead) (cfg : ICPConfig) : PipelineRun :=
  { run_id := "run"
    stats := { fetched := fetched.length
               scored := (fetched.map (fun l => Scorer.score l cfg)).length }
    leads := (sortScored (fetched.map (fun l => Scorer.score l cfg))).map Prod.snd }

/-- C5: at successful completion `stats.scored` equals the number of leads, and the
lead sequence is sorted by descending `fit_score`; the index-tagged sorted sequence
is a permutation of the scored leads in fetch order that satisfies `rankRel`
pairwise, i.e. equal scores keep their original fetch order (stable sort). -/
theorem C5_scored_count_and_order (fetched : List Lead) (cfg : ICPConfig) :
    (runPipeline fetched cfg).stats.scored = (runPipeline fetched cfg).leads.length ∧
    List.Pairwise (fun a b => b.fit_score ≤ a.fit_score) (runPipeline fetched cfg).leads ∧
    List.Pairwise rankRel (sortScored (fetched.map (fun l => Scorer.score l cfg))) ∧
    (sortScored (fetched.map (fun l => Scorer.score l cfg))).Perm
      ((fetched.map (fun l => Scorer.score l cfg)).enum) := by
  have hs : List.Pairwise rankRel (sortScored (fetched.map (fun l => Scorer.score l cfg))) :=
    List.sorted_insertionSort rankRel _
  refine ⟨?_, ?_, hs, List.perm_insertionSort rankRel _⟩
  · show (fetched.map (fun l => Scorer.score l cfg)).length = _
    simp [runPipeline, sortScored]
  · show List.Pairwise _ ((sortScored (fetched.map (fun l => Scorer.score l cfg))).map Prod.snd)
    rw [List.pairwise_map]
    exact hs.imp (fun h => by
      rcases h with h | ⟨h, _⟩
      · exact Nat.le_of_lt h
      · exact Nat.le_of_eq h.symm)

/- ## Enricher (modelled from the spec §4.4: webhook call per lead, additive merge,
per-lead failure isolation). -/

/-- The outcome of one enrichment call: a flat attribute bag, or a failure
(timeout, non-2xx status, malformed response). -/
inductive EnrichOutcome
  | ok (attrs : List (String × String))
  | failed (msg : String)
deriving DecidableEq, Repr

/-- Whether an enrichment call failed. -/
def EnrichOutcome.isFailed : EnrichOutcome → Bool
  | .ok _ => false
  | .failed _ => true

/-- Modelled from the spec: additive merge — attributes are stored under the source
name, never touching the identity fields already populated. -/
def mergeEnrichment (lead : Lead) (src : String) (attrs : List (String × String)) : Lead :=
  { lead with enrichment := lead.enrichment ++ [(src, attrs)] }

/-- Modelled from the spec: a defect is recorded against the lead for later surfacing. -/
def recordDefect (lead : Lead) (msg : String) : Lead :=
  { lead with defects := lead.defects ++ [msg] }

/-- Modelled from the spec: the effect of one enrichment call on one lead — merge on
success, keep the lead unmodified and record the defect on failure. -/
def enrichOne (o : EnrichOutcome) (l : Lead) : Lead :=
  match o with
  | .ok attrs => mergeEnrichment l "clay" attrs
  | .failed m => recordDefect l ("enrichment failed: " ++ m)

/-- Enrich the leads from position `i` onward, one call per lead. -/
def enrichFrom (outcome : Nat → EnrichOutcome) : Nat → List Lead → List Lead
  | _, [] => []
  | i, l :: rest => enrichOne (outcome i) l :: enrichFrom outcome (i + 1) rest

/-- Count the failed calls among positions `i, i+1, …` for `n` leads. -/
def countFailedFrom (outcome : Nat → EnrichOutcome) (i : Nat) : Nat → Nat
  | 0 => 0
  | Nat.succ m => (if (outcome i).isFailed then 1 else 0) + countFailedFrom outcome (i + 1) m

/-- Modelled from the spec: the enrichment stage — every lead is processed, failures
are isolated per lead, and `stats.enrichment_failed` counts them. -/
def enrichStage (leads : List Lead) (outcome : Nat → EnrichOutcome) : List Lead × Nat :=
  (enrichFrom outcome 0 leads, countFailedFrom outcome 0 leads.length)

/-- Placeholder lead used as the default of positional lookups. -/
def deadLead : Lead :=
  { full_name := "", title := "", company_name := "", industry := "",
    employee_count := none, location := "", linkedin_url := none, email := none,
    email_verified := false }

/-- The enrichment stage preserves the number of leads. -/
lemma enrichFrom_length (outcome : Nat → EnrichOutcome) :
    ∀ (leads : List Lead) (i : Nat), (enrichFrom outcome i leads).length = leads.length := by
  intro leads
  induction leads with
  | nil => intro i; rfl
  | cons l rest ih => intro i; simp [enrichFrom, ih]

/-- Positional description of the enrichment stage. -/
lemma enrichFrom_getD (outcome : Nat → EnrichOutcome) :
    ∀ (leads : List Lead) (i j : Nat), j < leads.length →
      (enrichFrom outcome i leads).getD j deadLead =
        enrichOne (outcome (i + j)) (leads.getD j deadLead) := by
  intro leads
  induction leads with
  | nil => intro i j h; cases h
  | cons l rest ih =>
    intro i j h
    cases j with
    | zero => rfl
    | succ k =>
      have hk : k < rest.length := Nat.lt_of_succ_lt_succ h
      have := ih (i + 1) k hk
      simpa [enrichFrom, Nat.add_assoc, Nat.add_comm 1 k] using this

/-- C8: when enrichment fails for exactly one lead out of all fetched leads, the run
still completes — every other lead is enriched normally by the additive merge, the
failing lead keeps all its identity fields and prior enrichment unmodified with the
defect recorded against it, and `stats.enrichment_failed` equals 1. -/
theorem C8_enrichment_isolation (leads : List Lead) (outcome : Nat → EnrichOutcome)
    (h1 : countFailedFrom outcome 0 leads.length = 1) :
    (enrichStage leads outcome).2 = 1 ∧
    (enrichStage leads outcome).1.length = leads.length ∧
    (∀ j attrs, j < leads.length → outcome j = .ok attrs →
      (enrichStage leads outcome).1.getD j deadLead =
        mergeEnrichment (leads.getD j deadLead) "clay" attrs) ∧
    (∀ j m, j < leads.length → outcome j = .failed m →
      ((enrichStage leads outcome).1.getD j deadLead).core = (leads.getD j deadLead).core ∧
      ((enrichStage leads outcome).1.getD j deadLead).enrichment =
        (leads.getD j deadLead).enrichment ∧
      ((enrichStage leads outcome).1.getD j deadLead).defects =
        (leads.getD j deadLead).defects ++ ["enrichment failed: " ++ m]) := by
  refine ⟨h1, enrichFrom_length outcome leads 0, ?_, ?_⟩
  · intro j attrs hj ho
    have := enrichFrom_getD outcome leads 0 j hj
    rw [Nat.zero_add] at this
    rw [show (enrichStage leads outcome).1 = enrichFrom outcome 0 leads from rfl, this, ho]
    rfl
  · intro j m hj ho
    have := enrichFrom_getD outcome leads 0 j hj
    rw [Nat.zero_add] at this
    rw [show (enrichStage leads outcome).1 = enrichFrom outcome 0 leads from rfl, this, ho]
    exact ⟨rfl, rfl, rfl⟩

/-- Three concrete fetched leads for the enrichment-isolation witness run. -/
def wLeadsC8 : List Lead :=
  [{ full_name := "Ada Alpha", title := "CTO", company_name := "Alpha", industry := "SaaS",
     employee_count := some 20, location := "US", linkedin_url := some "l1", email := none,
     email_verified := false },
   { full_name := "Bo Beta", title := "VP Sales", company_name := "Beta", industry := "SaaS",
     employee_count := some 40, location := "US", linkedin_url := none, email := none,
     email_verified := false },
   { full_name := "Cy Gamma", title := "Director", company_name := "Gamma",
     industry := "SaaS", employee_count := some 30, location := "US", linkedin_url := none,
     email := none, email_verified := false }]

/-- Witness outcomes: the call for lead 1 times out, the others succeed. -/
def wOutcomeC8 (i : Nat) : EnrichOutcome :=
  if i = 1 then .failed "timeout" else .ok [("company_domain", "example.io")]

/-- C8 witness: in a 3-lead run whose second enrichment call times out, the stage
reports exactly one failure, enriches lead 0 normally, and retains lead 1
unmodified with the timeout defect recorded. -/
theorem C8_enrichment_isolation_witness :
    (enrichStage wLeadsC8 wOutcomeC8).2 = 1 ∧
    (enrichStage wLeadsC8 wOutcomeC8).1.getD 0 deadLead =
      mergeEnrichment (wLeadsC8.getD 0 deadLead) "clay" [("company_domain", "example.io")] ∧
    ((enrichStage wLeadsC8 wOutcomeC8).1.getD 1 deadLead).core =
      (wLeadsC8.getD 1 deadLead).core ∧
    ((enrichStage wLeadsC8 wOutcomeC8).1.getD 1 deadLead).defects =
      (wLeadsC8.getD 1 deadLead).defects ++ ["enrichment failed: timeout"] := by
  refine ⟨(C8_enrichment_isolation wLeadsC8 wOutcomeC8 (by decide)).1,
    (C8_enrichment_isolation wLeadsC8 wOutcomeC8 (by decide)).2.2.1 0
      [("company_domain", "example.io")] (by decide) (by rfl),
    ((C8_enrichment_isolation wLeadsC8 wOutcomeC8 (by decide)).2.2.2 1 "timeout"
      (by decide) (by rfl)).1,
    ((C8_enrichment_isolation wLeadsC8 wOutcomeC8 (by decide)).2.2.2 1 "timeout"
      (by decide) (by rfl)).2.2⟩

/- ## Run report (modelled from the spec §7) and the pipeline HTTP handler
(embedded from src/unnamed/part_001). -/

/-- Pipeline stages, for naming the failed stage in a run report. -/
inductive StageName
  | init | parse | fetch | enrich | score | export
deriving DecidableEq, Repr

/-- Modelled from the spec: the structured result every run returns, carrying the
failed stage, a message, and the (possibly partial) stats. -/
structure RunReport where
  ok : Bool
  failed_stage : Option StageName
  message : String
  stats : RunStats
  leads : List Lead
deriving Repr

/-- Modelled from the spec §7: the orchestrator over its two fatal points
(`ConfigNotFound` before fetch, `SourceUnavailable` at fetch); a fatal error still
produces a structured report with the failed stage, cause and partial stats, while
a successful run reports full stats. -/
def orchestrate (cfgRes : Except String ICPConfig)
    (fetchRes : ICPConfig → Except String (List Lead))
    (outcome : Nat → EnrichOutcome) : RunReport :=
  match cfgRes with
  | .error m =>
    { ok := false, failed_stage := some .init, message := "ConfigNotFound: " ++ m,
      stats := {}, leads := [] }
  | .ok cfg =>
    match fetchRes cfg with
    | .error m =>
      { ok := false, failed_stage := some .fetch, message := "SourceUnavailable: " ++ m,
        stats := { fetched := 0 }, leads := [] }
    | .ok fetched =>
      { ok := true, failed_stage := none, message := "completed"
        stats := { fetched := fetched.length
                   enriched := fetched.length - (enrichStage fetched outcome).2
                   enrichment_failed := (enrichStage fetched outcome).2
                   scored := (runPipeline (enrichStage fetched outcome).1 cfg).stats.scored
                   exported := (runPipeline (enrichStage fetched outcome).1 cfg).leads.length }
        leads := (runPipeline (enrichStage fetched outcome).1 cfg).leads }

/-- The response bodies the pipeline endpoint can produce (from part_001): a 400
error, the success body carrying only the leads array, a read failure carrying the
error message plus raw script output, or a bare error message. -/
inductive ApiBody
  | missingQuery (error : String)
  | leadsOnly (success : Bool) (leads : List Lead)
  | errorWithDetails (success : Bool) (error details : String)
  | errorOnly (success : Bool) (error : String)
deriving DecidableEq, Repr

/-- The pipeline HTTP handler from src/unnamed/part_001: a missing/empty query is a
400; an exec failure is a 500 with the error message; a missing/unreadable output
file is a 500 with the message plus raw stdout/stderr; success is a 200 with only
the leads array. -/
def pipelinePOST (query : Option String)
    (execRes : Except String (String × String))
    (fileRes : Except String (List Lead)) : Nat × ApiBody :=
  match query with
  | none => (400, .missingQuery "Query is required")
  | some q =>
    if q = "" then (400, .missingQuery "Query is required")
    else
      match execRes with
      | .error m => (500, .errorOnly false m)
      | .ok out =>
        match fileRes with
        | .error _ =>
          (500, .errorWithDetails false "Pipeline ran but output file not found."
            (out.1 ++ "\n" ++ out.2))
        | .ok leads => (200, .leadsOnly true leads)

/-- C4: every invocation of the (spec-modelled) pipeline yields a structured run
report — on any fatal failure the report names the failed stage, carries the cause
message and the partial stats — while the visible HTTP handler returns only the
leads array on success and only an error message plus raw script output on failure. -/
theorem C4_structured_result
    (cfgRes : Except String ICPConfig) (fetchRes : ICPConfig → Except String (List Lead))
    (outcome : Nat → EnrichOutcome)
    (query : Option String) (execRes : Except String (String × String))
    (fileRes : Except String (List Lead))
    (hq : query ≠ none) (hq2 : query ≠ some "") :
    ((orchestrate cfgRes fetchRes outcome).ok = false →
      (orchestrate cfgRes fetchRes outcome).failed_stage.isSome = true) ∧
    (∀ m, cfgRes = .error m →
      orchestrate cfgRes fetchRes outcome =
        { ok := false, failed_stage := some .init, message := "ConfigNotFound: " ++ m,
          stats := {}, leads := [] }) ∧
    (∀ cfg m, cfgRes = .ok cfg → fetchRes cfg = .error m →
      orchestrate cfgRes fetchRes outcome =
        { ok := false, failed_stage := some .fetch, message := "SourceUnavailable: " ++ m,
          stats := { fetched := 0 }, leads := [] }) ∧
    (∀ m, execRes = .error m →
      pipelinePOST query execRes fileRes = (500, .errorOnly false m)) ∧
    (∀ out m, execRes = .ok out → fileRes = .error m →
      pipelinePOST query execRes fileRes =
        (500, .errorWithDetails false "Pipeline ran but output file not found."
          (out.1 ++ "\n" ++ out.2))) ∧
    (∀ out leads, execRes = .ok out → fileRes = .ok leads →
      pipelinePOST query execRes fileRes = (200, .leadsOnly true leads)) := by
  rcases query with _ | q
  · exact absurd rfl hq
  have hqe : ¬(q = "") := fun h => hq2 (by rw [h])
  refine ⟨?_, ?_, ?_, ?_, ?_, ?_⟩
  · intro hok
    cases cfgRes with
    | error m => rfl
    | ok cfg =>
      cases hf : fetchRes cfg with
      | error m => simp [orchestrate, hf]
      | ok fetched => simp [orchestrate, hf] at hok
  · intro m hm; subst hm; rfl
  · intro cfg m hm hf; subst hm; simp [orchestrate, hf]
  · intro m hm; subst hm; simp [pipelinePOST, hqe]
  · intro out m hm hf; subst hm; subst hf; simp [pipelinePOST, hqe]
  · intro out leads hm hf; subst hm; subst hf; simp [pipelinePOST, hqe]

/-- C4 witness: an unknown config name yields a structured `ConfigNotFound` report,
and an exec failure in the handler yields only a bare error body. -/
theorem C4_structured_result_witness :
    orchestrate (.error "icp_v9") (fun _ => .ok []) (fun _ => .ok []) =
      { ok := false, failed_stage := some .init, message := "ConfigNotFound: " ++ "icp_v9",
        stats := {}, leads := [] } ∧
    pipelinePOST (some "CTOs at SaaS startups") (.error "spawn failed") (.ok []) =
      (500, .errorOnly false "spawn failed") := by
  refine ⟨(C4_structured_result (.error "icp_v9") (fun _ => .ok []) (fun _ => .ok [])
      (some "CTOs at SaaS startups") (.error "spawn failed") (.ok [])
      (by decide) (by decide)).2.1 "icp_v9" rfl,
    (C4_structured_result (.error "icp_v9") (fun _ => .ok []) (fun _ => .ok [])
      (some "CTOs at SaaS startups") (.error "spawn failed") (.ok [])
      (by decide) (by decide)).2.2.2.1 "spawn failed" rfl⟩

/- ## Shell command construction (embedded from src/unnamed/part_001, line 26). -/

/-- The handler's escaping of the user query: each double quote becomes a
backslash-quote pair; every other character is kept as-is. -/
def escapeChars : List Char → List Char
  | [] => []
  | c :: cs => (if c = '"' then ['\\', '"'] else [c]) ++ escapeChars cs

/-- The command string the handler passes to the shell (from part_001):
`python3 "<script>" --query "<escaped query>" --limit <n> [--apify]`. -/
def buildCommand (scriptPath query : String) (limit : Nat) (useApify : Bool) : String :=
  String.mk ("python3 \"".data ++ scriptPath.data ++ "\" --query \"".data ++
    escapeChars query.data ++ "\" --limit ".data ++ (toString limit).data ++
    " ".data ++ (if useApify then "--apify" else "").data)

/-- Non-quote characters survive the handler's escaping verbatim. -/
lemma mem_escapeChars {c : Char} :
    ∀ {l : List Char}, c ∈ l → c ≠ '"' → c ∈ escapeChars l := by
  intro l
  induction l with
  | nil => intro h _; cases h
  | cons a t ih =>
    intro h hq
    rcases List.mem_cons.1 h with h' | h'
    · subst h'
      simp [escapeChars, if_neg hq]
    · exact List.mem_append.2 (Or.inr (ih h' hq))

/-- On a query with no double quote, the escaping is the identity. -/
lemma escapeChars_id :
    ∀ {l : List Char}, (∀ x ∈ l, x ≠ '"') → escapeChars l = l := by
  intro l
  induction l with
  | nil => intro _; rfl
  | cons a t ih =>
    intro h
    have ha := h a (List.mem_cons_self _ _)
    simp [escapeChars, if_neg ha, ih (fun x hx => h x (List.mem_cons_of_mem _ hx))]

/-- A query exercising shell metacharacters that the handler does not escape. -/
def metaQuery : String := "a`b; $(rm x)"

/-- C9: the shell command is built by interpolating the user query with only double
quotes backslash-escaped — every other character of the query, shell metacharacters
included, appears verbatim in the command string passed to the shell. -/
theorem C9_command_interpolation (sp q : String) (n : Nat) (a : Bool) (c : Char) :
    (c ∈ q.data → c ≠ '"' → c ∈ (buildCommand sp q n a).data) ∧
    ((∀ x ∈ q.data, x ≠ '"') → escapeChars q.data = q.data) := by
  constructor
  · intro hc hq
    have h := mem_escapeChars hc hq
    show c ∈ ("python3 \"".data ++ sp.data ++ "\" --query \"".data ++
      escapeChars q.data ++ "\" --limit ".data ++ (toString n).data ++
      " ".data ++ (if a then "--apify" else "").data)
    simp only [List.mem_append]
    tauto
  · exact escapeChars_id

/-- C9 witness: for the query "a`b; $(rm x)" the executed command string contains an
unescaped backtick, dollar sign and semicolon. -/
theorem C9_command_interpolation_witness :
    (Char.ofNat 96) ∈ (buildCommand "run_pipeline.py" metaQuery 5 true).data ∧
    '$' ∈ (buildCommand "run_pipeline.py" metaQuery 5 true).data ∧
    ';' ∈ (buildCommand "run_pipeline.py" metaQuery 5 true).data := by
  refine ⟨(C9_command_interpolation "run_pipeline.py" metaQuery 5 true
      (Char.ofNat 96)).1 (by decide) (by decide),
    (C9_command_interpolation "run_pipeline.py" metaQuery 5 true '$').1
      (by decide) (by decide),
    (C9_command_interpolation "run_pipeline.py" metaQuery 5 true ';').1
      (by decide) (by decide)⟩

/- ## Clarification endpoint (embedded from src/unnamed/part_000). -/

/-- The response bodies of the clarification endpoint: a 400 error, a
needs-clarification:false body with an error field, or the parsed script output. -/
inductive ClarifyBody
  | missingQuery (error : String)
  | noClarify (needs_clarification : Bool) (error : String)
  | result (payload : String)
deriving DecidableEq, Repr

/-- How the spawned clarification script ended: an exception somewhere in the
handler, or a close event with an exit code and the JSON-parse result of stdout. -/
inductive ScriptRun
  | threw (msg : String)
  | closed (code : Int) (parsed : Option String)
deriving DecidableEq, Repr

/-- The clarification HTTP handler from src/unnamed/part_000: missing/empty query →
400; non-zero exit, unparsable stdout, or an exception → 200 with
`needs_clarification := false` and an error; otherwise 200 with the parsed result. -/
def clarifyPOST (query : Option String) (run : ScriptRun) : Nat × ClarifyBody :=
  match query with
  | none => (400, .missingQuery "Query is required")
  | some q =>
    if q = "" then (400, .missingQuery "Query is required")
    else
      match run with
      | .threw m => (200, .noClarify false m)
      | .closed code parsed =>
        if code ≠ 0 then (200, .noClarify false "Script failed")
        else
          match parsed with
          | none => (200, .noClarify false "Parse error")
          | some j => (200, .result j)

/-- C10: the clarification endpoint answers 400 exactly on a missing/empty query;
any request carrying a query gets HTTP 200 — including a non-zero script exit,
unparsable stdout, or a thrown exception, each answered with
`needs_clarification := false` plus an error field. -/
theorem C10_clarify_statuses (query : Option String) (run : ScriptRun) :
    ((clarifyPOST query run).1 = 400 ↔ (query = none ∨ query = some "")) ∧
    ((clarifyPOST query run).1 = 200 ∨ (clarifyPOST query run).1 = 400) ∧
    (∀ q, query = some q → q ≠ "" →
      (clarifyPOST query run).1 = 200 ∧
      (∀ m, run = .threw m → (clarifyPOST query run).2 = .noClarify false m) ∧
      (∀ code parsed, run = .closed code parsed → code ≠ 0 →
        (clarifyPOST query run).2 = .noClarify false "Script failed") ∧
      (∀ parsed, run = .closed 0 parsed → parsed = none →
        (clarifyPOST query run).2 = .noClarify false "Parse error")) := by
  rcases query with _ | q
  · refine ⟨by simp [clarifyPOST], Or.inr rfl, ?_⟩
    intro q hq; cases hq
  by_cases hq : q = ""
  · subst hq
    refine ⟨by simp [clarifyPOST], Or.inr rfl, ?_⟩
    intro q' hq' hne
    injection hq' with h
    exact absurd h.symm hne
  · have hstat : (clarifyPOST (some q) run).1 = 200 := by
      rcases run with m | ⟨code, parsed⟩
      · simp [clarifyPOST, hq]
      · by_cases hc : code = 0
        · subst hc
          rcases parsed with _ | j <;> simp [clarifyPOST, hq]
        · simp [clarifyPOST, hq, hc]
    refine ⟨?_, Or.inl hstat, ?_⟩
    · rw [hstat]
      simp [hq]
    · intro q' hq' _
      injection hq' with h
      subst h
      refine ⟨hstat, ?_, ?_, ?_⟩
      · intro m hm; subst hm; simp [clarifyPOST, hq]
      · intro code parsed hr hc; subst hr; simp [clarifyPOST, hq, hc]
      · intro parsed hr hp; subst hr; subst hp; simp [clarifyPOST, hq]

/-- C10 witness: a present query with a failing script still gets HTTP 200 with the
"Script failed" error body, while a missing query gets HTTP 400. -/
theorem C10_clarify_statuses_witness :
    (clarifyPOST (some "CTOs in US") (.closed 1 none)).1 = 200 ∧
    (clarifyPOST (some "CTOs in US") (.closed 1 none)).2 =
      .noClarify false "Script failed" ∧
    (clarifyPOST none (.closed 0 (some "parsed"))).1 = 400 := by
  refine ⟨((C10_clarify_statuses (some "CTOs in US") (.closed 1 none)).2.2 "CTOs in US"
      rfl (by decide)).1,
    ((C10_clarify_statuses (some "CTOs in US") (.closed 1 none)).2.2 "CTOs in US"
      rfl (by decide)).2.2.1 1 none rfl (by decide),
    (C10_clarify_statuses none (.closed 0 (some "parsed"))).1.mpr (Or.inl rfl)⟩
